import Mathlib

/-!
Shallow embedding of the repository's two hooks:
`usePrepareBet` (bet preparation: allowance check, approval, odds-derived
minimum odds, bet transaction assembly) and `useChainData` (chain metadata
lookup).  JavaScript numbers are modelled as exact rationals, bigints as
integers/naturals, and the sequential effect structure of the async
functions as explicit traces of steps.
-/

namespace SDK

/-- viem's `parseUnits`: a decimal value scaled by `10 ^ d` to an integer,
with digits beyond the `d`-th decimal place rounded to the nearest unit
(ties up), as viem does on the decimal string. -/
def parseUnits (q : ℚ) (d : ℕ) : ℤ := round (q * 10 ^ d)

/-- JavaScript's `+x.toFixed(d)` on a number `x`: the value rounded to `d`
decimal places (nearest, ties up), re-read as a number. -/
def roundToFixed (d : ℕ) (q : ℚ) : ℚ := (round (q * 10 ^ d) : ℚ) / 10 ^ d

/-- The bet token from the chain context: address, whether it is the chain's
native asset, and its decimal precision. -/
structure BetToken where
  address : ℕ
  isNative : Bool
  decimals : ℕ
  deriving DecidableEq, Repr

/-- Per-chain contract addresses from the chain context. -/
structure Contracts where
  proxyFront : ℕ
  prematchCore : ℕ
  prematchComboCore : ℕ
  lp : ℕ
  deriving DecidableEq, Repr

/-- One selection of a bet: `{ conditionId, outcomeId }` (both converted to
bigint by the code before use). -/
structure Selection where
  conditionId : ℕ
  outcomeId : ℕ
  deriving DecidableEq, Repr

/-- `isApproveRequired` from `usePrepareBet`:
`Boolean(!betToken.isNative && allowanceTx.data !== undefined && +amount
&& allowanceTx.data < parseUnits(String(+amount), betToken.decimals))`.
`allowanceData` is `allowanceTx.data` (an ERC-20 allowance, a uint256,
hence `Option ℕ`); `amount` is the numeric value `+amount`. -/
def isApproveRequired (betToken : BetToken) (allowanceData : Option ℕ)
    (amount : ℚ) : Bool :=
  !betToken.isNative
    && allowanceData.isSome
    && !(decide (amount = 0))
    && allowanceData.elim false
        (fun a => decide ((a : ℤ) < parseUnits amount betToken.decimals))

/-- `minOdds` inside `placeBet`:
`1 + (totalOdds - 1) * (100 - slippage) / 100`. -/
def minOdds (totalOdds slippage : ℚ) : ℚ :=
  1 + (totalOdds - 1) * (100 - slippage) / 100

/-- `fixedMinOdds` inside `placeBet`:
`+parseFloat(String(minOdds)).toFixed(ODDS_DECIMALS)`. -/
def fixedMinOdds (oddsDecimals : ℕ) (totalOdds slippage : ℚ) : ℚ :=
  roundToFixed oddsDecimals (minOdds totalOdds slippage)

/-- The spec's formula for the minimum acceptable odds, written from the
spec's words for comparison with the code's `minOdds`:
"minOdds = 1 + (totalOdds - 1) × (100 - slippage)/100". -/
def specMinOdds (totalOdds slippage : ℚ) : ℚ :=
  1 + (totalOdds - 1) * (100 - slippage) / 100

/-- The runtime failure raised by the single-selection branch when
`selections` is empty: destructuring `selections[0]!` (then `undefined`)
throws a TypeError. -/
inductive RuntimeErr where
  | typeError
  deriving DecidableEq, Repr

/-- The payload handed to `betTx.writeAsync` by `placeBet`: the arguments of
the proxy-front `bet` call plus the attached native value.  `dataWords` is
the ABI encoding of the selection data as a sequence of 32-byte words. -/
structure BetCall where
  lp : ℕ
  coreAddress : ℕ
  amount : ℤ
  expiresAt : ℕ
  affiliate : ℕ
  minOdds : ℤ
  dataWords : List ℕ
  value : ℤ
  deriving DecidableEq, Repr

/-- `encodeAbiParameters(parseAbiParameters('uint256, uint64'),
[BigInt(conditionId), BigInt(outcomeId)])`: two static words (values assumed
in range for their ABI types). -/
def encodeSingle (s : Selection) : List ℕ :=
  [s.conditionId, s.outcomeId]

/-- `encodeAbiParameters(parseAbiParameters('(uint256, uint64)[]'),
[tuple])`: one offset word (32 bytes), the array length, then the tuples
flattened two words each, in input order. -/
def encodeComboArray (sels : List Selection) : List ℕ :=
  32 :: sels.length :: (sels.map (fun s => [s.conditionId, s.outcomeId])).flatten

/-- The inputs `placeBet` closes over: hook props, chain context, clock and
static configuration (`ODDS_DECIMALS`, `DEFAULT_DEADLINE`). -/
structure PlaceBetArgs where
  contracts : Contracts
  betToken : BetToken
  amount : ℚ
  slippage : ℚ
  deadline : Option ℕ
  affiliate : ℕ
  selections : List Selection
  now : ℕ
  oddsDecimals : ℕ
  defaultDeadline : ℕ
  deriving DecidableEq, Repr

/-- `placeBet` from `usePrepareBet`, as the transaction payload it submits:
`.ok none` when the guard `if (!totalOdds) return` fires (no odds, or a
falsy zero), `.error .typeError` when the single-selection branch
dereferences `selections[0]` of an empty list, and `.ok (some call)`
otherwise, with the branch on `selections.length > 1` choosing the combo
core and encoding against the single core. -/
def placeBet (a : PlaceBetArgs) (totalOdds : Option ℚ) :
    Except RuntimeErr (Option BetCall) :=
  match totalOdds with
  | none => .ok none
  | some t =>
    if t = 0 then .ok none
    else
      let fixedAmount := roundToFixed a.betToken.decimals a.amount
      let rawAmount := parseUnits fixedAmount a.betToken.decimals
      let rawMinOdds :=
        parseUnits (fixedMinOdds a.oddsDecimals t a.slippage) a.oddsDecimals
      let rawDeadline := a.now +
        (match a.deadline with
          | some d => if d = 0 then a.defaultDeadline else d
          | none => a.defaultDeadline)
      let value : ℤ := if a.betToken.isNative then rawAmount else 0
      if 1 < a.selections.length then
        .ok (some
          { lp := a.contracts.lp
            coreAddress := a.contracts.prematchComboCore
            amount := rawAmount
            expiresAt := rawDeadline
            affiliate := a.affiliate
            minOdds := rawMinOdds
            dataWords := encodeComboArray a.selections
            value := value })
      else
        match a.selections with
        | [] => .error .typeError
        | s :: _ =>
          .ok (some
            { lp := a.contracts.lp
              coreAddress := a.contracts.prematchCore
              amount := rawAmount
              expiresAt := rawDeadline
              affiliate := a.affiliate
              minOdds := rawMinOdds
              dataWords := encodeSingle s
              value := value })

/-- The externally visible effects the hook's async functions perform, in
order. -/
inductive Step where
  | approveWrite
  | approveWait
  | allowanceRefetch
  | betWrite
  | betWait
  deriving DecidableEq, Repr

/-- `approve` from `usePrepareBet`:
`await approveTx.writeAsync(); await publicClient.waitForTransactionReceipt(tx);
allowanceTx.refetch()`.  `writeOk` is whether `writeAsync` resolves, `waitOk`
whether the receipt wait resolves; a rejected await aborts the rest of the
function. -/
def approveRun (writeOk waitOk : Bool) : List Step :=
  if writeOk then
    if waitOk then [.approveWrite, .approveWait, .allowanceRefetch]
    else [.approveWrite, .approveWait]
  else [.approveWrite]

/-- The effect trace of `placeBet`: nothing when the odds guard returns or
the empty-selections dereference throws; otherwise the bet write followed by
the receipt wait. -/
def placeBetSteps (a : PlaceBetArgs) (totalOdds : Option ℚ) : List Step :=
  match placeBet a totalOdds with
  | .ok none => []
  | .ok (some _) => [.betWrite, .betWait]
  | .error _ => []

/-- `submit` from `usePrepareBet`:
`if (isApproveRequired) return approve(); return placeBet()`. -/
def submitRun (approveRequired : Bool) (writeOk waitOk : Bool)
    (a : PlaceBetArgs) (totalOdds : Option ℚ) : List Step :=
  if approveRequired then approveRun writeOk waitOk
  else placeBetSteps a totalOdds

/-- React's `useEffect` with a one-element dependency list, folded over the
sequence of renders: the effect body runs on the first render and whenever
the dependency differs from the previous render's; the bodies here invoke
the callback with payload `x` exactly when the watched flag is `true`.
Returns the list of payloads passed to the callback, in order. -/
def effectCalls {α : Type} (prev : Option Bool) :
    List (Bool × α) → List α
  | [] => []
  | (b, x) :: rest =>
    (if (prev != some b) && b then [x] else []) ++ effectCalls (some b) rest

/-- Per-chain metadata: the record `useChainData` returns. -/
structure ChainData where
  contracts : Contracts
  betToken : BetToken
  deriving DecidableEq, Repr

/-- Modelled from the spec: the per-chain metadata table (`chainsData` in
the config module, which is not under src/) — "static configuration keyed
by chain identifier", holding "per-chain contract addresses and token
decimals".  Chain identifiers are positive EVM network ids. -/
def chainsData : ℕ → Option ChainData := fun id =>
  if id = 100 then
    some { contracts := ⟨1001, 1002, 1003, 1004⟩
           betToken := ⟨1005, false, 18⟩ }
  else if id = 137 then
    some { contracts := ⟨2001, 2002, 2003, 2004⟩
           betToken := ⟨2005, false, 6⟩ }
  else if id = 80001 then
    some { contracts := ⟨3001, 3002, 3003, 3004⟩
           betToken := ⟨3005, true, 18⟩ }
  else none

/-- `useChainData`: `chain?.id ? chainsData[chain.id] : undefined`, logging
`"Selected network not supported."` and returning `undefined` when no
record is found.  Returns the resolved record together with the list of
messages logged; the function is total (no exception). -/
def useChainData (chain : Option ℕ) : Option ChainData × List String :=
  let chainData : Option ChainData :=
    match chain with
    | some id => if id ≠ 0 then chainsData id else none
    | none => none
  match chainData with
  | some d => (some d, [])
  | none => (none, ["Selected network not supported."])

/-! ### Helper lemmas -/

lemma parseUnits_zero (d : ℕ) : parseUnits 0 d = 0 := by
  simp [parseUnits]

lemma roundToFixed_of_int (d : ℕ) (q : ℚ) (n : ℤ) (h : q * 10 ^ d = (n : ℚ)) :
    roundToFixed d q = q := by
  have hpow : ((10 : ℚ) ^ d) ≠ 0 := by positivity
  unfold roundToFixed
  rw [h, round_intCast, ← h, mul_div_assoc, div_self hpow, mul_one]

lemma one_le_roundToFixed (d : ℕ) (q : ℚ) (h : 1 ≤ q) :
    1 ≤ roundToFixed d q := by
  have hpow : (0 : ℚ) < 10 ^ d := by positivity
  have h1 : ((10 : ℤ) ^ d : ℤ) ≤ round (q * 10 ^ d) := by
    rw [round_eq]
    apply Int.le_floor.mpr
    push_cast
    nlinarith
  unfold roundToFixed
  rw [one_le_div hpow]
  calc ((10 : ℚ) ^ d) = ((10 : ℤ) ^ d : ℤ) := by push_cast; ring
  _ ≤ (round (q * 10 ^ d) : ℚ) := by exact_mod_cast h1

/-! ### Claims -/

/-- C1: for every amount, allowance value and bet token, `isApproveRequired`
is true exactly when the token is non-native and the current allowance is
strictly below the requested spend parsed to the token's decimal precision;
false otherwise, and always false when the token is native. -/
theorem isApproveRequired_iff (tok : BetToken) (ad : Option ℕ) (amount : ℚ) :
    (tok.isNative = true → isApproveRequired tok ad amount = false)
    ∧ ∀ a : ℕ, (isApproveRequired tok (some a) amount = true
        ↔ tok.isNative = false ∧ (a : ℤ) < parseUnits amount tok.decimals) := by
  constructor
  · intro h
    simp [isApproveRequired, h]
  · intro a
    by_cases h0 : amount = 0
    · subst h0
      have hnn : ¬ ((a : ℤ) < parseUnits 0 tok.decimals) := by
        rw [parseUnits_zero]
        omega
      simp [isApproveRequired, hnn]
    · cases hnat : tok.isNative with
      | true => simp [isApproveRequired, hnat]
      | false => simp [isApproveRequired, hnat, h0]

/-- C1 witness: a non-native token with 6 decimals, allowance 5,000,000 and
amount 10 requires approval. -/
theorem isApproveRequired_iff_witness :
    isApproveRequired ⟨2005, false, 6⟩ (some 5000000) 10 = true :=
  ((isApproveRequired_iff ⟨2005, false, 6⟩ (some 5000000) 10).2 5000000).mpr
    ⟨rfl, by norm_num [parseUnits, round_eq]⟩

/-- C3: `placeBet` computes the minimum acceptable odds as
`1 + (totalOdds - 1) × (100 - slippage)/100` rounded to the configured odds
decimal precision, and in particular totalOdds 2.0 with slippage 5 yields
1.95 for any precision of at least two decimals. -/
theorem fixedMinOdds_formula (d : ℕ) (t s : ℚ) :
    fixedMinOdds d t s = roundToFixed d (specMinOdds t s)
    ∧ (2 ≤ d → fixedMinOdds d 2 5 = 39 / 20) := by
  constructor
  · rfl
  · intro hd
    obtain ⟨k, rfl⟩ : ∃ k, d = 2 + k := ⟨d - 2, by omega⟩
    have hval : minOdds 2 5 = 39 / 20 := by norm_num [minOdds]
    unfold fixedMinOdds
    rw [hval]
    apply roundToFixed_of_int _ _ (195 * 10 ^ k)
    push_cast
    ring

/-- C3 witness: with the odds precision at 12 decimals, totalOdds 2.0 and
slippage 5 give minimum odds 1.95. -/
theorem fixedMinOdds_formula_witness : fixedMinOdds 12 2 5 = 39 / 20 :=
  (fixedMinOdds_formula 12 2 5).2 (by norm_num)

/-- C5 counterexample: the claim "for every available totalOdds and every
slippage in [0, 100] the minimum acceptable odds is at least 1" fails at
totalOdds 0.5 with slippage 0 (an available, truthy value): the code has no
floor and produces 0.5. -/
theorem fixedMinOdds_below_one_cex :
    fixedMinOdds 12 (1 / 2) 0 = 1 / 2 ∧ ¬ (1 ≤ fixedMinOdds 12 (1 / 2) 0) := by
  have h : fixedMinOdds 12 (1 / 2) 0 = 1 / 2 := by
    unfold fixedMinOdds
    have hval : minOdds (1 / 2) 0 = 1 / 2 := by norm_num [minOdds]
    rw [hval]
    apply roundToFixed_of_int _ _ (5 * 10 ^ 11)
    norm_num
  refine ⟨h, ?_⟩
  rw [h]
  norm_num

/-- C5 amended: for every available totalOdds of at least 1 and every
slippage in [0, 100], the minimum acceptable odds computed by `placeBet` is
at least 1 (there is no explicit flooring in the code; the bound holds
because the formula cannot go below 1 on such inputs). -/
theorem one_le_fixedMinOdds (d : ℕ) (t s : ℚ)
    (ht : 1 ≤ t) (_hs0 : 0 ≤ s) (hs1 : s ≤ 100) :
    1 ≤ fixedMinOdds d t s := by
  apply one_le_roundToFixed
  unfold minOdds
  nlinarith [mul_nonneg (sub_nonneg.mpr ht) (sub_nonneg.mpr hs1)]

/-- C5 amended witness: totalOdds 1.2 with slippage 100 still yields minimum
odds at least 1. -/
theorem one_le_fixedMinOdds_witness : 1 ≤ fixedMinOdds 12 (6 / 5) 100 :=
  one_le_fixedMinOdds 12 (6 / 5) 100 (by norm_num) (by norm_num) (by norm_num)

/-- C6: when the aggregate odds have not resolved, `placeBet` is a silent
no-op: it submits no transaction, raises no error, and performs no step. -/
theorem placeBet_no_odds (a : PlaceBetArgs) :
    placeBet a none = .ok none ∧ placeBetSteps a none = [] :=
  ⟨rfl, rfl⟩

/-- Sample chain context for concrete instantiations. -/
def sampleContracts : Contracts := ⟨41, 42, 43, 44⟩

/-- Sample non-native bet token with 6 decimals. -/
def sampleToken : BetToken := ⟨45, false, 6⟩

/-- Sample `placeBet` closure inputs with a single selection. -/
def sampleArgs : PlaceBetArgs :=
  { contracts := sampleContracts
    betToken := sampleToken
    amount := 10
    slippage := 5
    deadline := none
    affiliate := 77
    selections := [⟨1, 2⟩]
    now := 1700000000
    oddsDecimals := 12
    defaultDeadline := 300 }

/-- C2: with odds available, a single-selection bet targets the single-bet
core address and encodes one (uint256, uint64) pair equal to that
selection; a list of more than one selection targets the combo core address
and encodes the ordered tuple array. -/
theorem placeBet_encoding (a : PlaceBetArgs) (t : ℚ) (ht : t ≠ 0) :
    (∀ s : Selection, a.selections = [s] →
      ∃ call, placeBet a (some t) = .ok (some call)
        ∧ call.coreAddress = a.contracts.prematchCore
        ∧ call.dataWords = [s.conditionId, s.outcomeId])
    ∧ (1 < a.selections.length →
      ∃ call, placeBet a (some t) = .ok (some call)
        ∧ call.coreAddress = a.contracts.prematchComboCore
        ∧ call.dataWords = 32 :: a.selections.length ::
            (a.selections.map (fun s => [s.conditionId, s.outcomeId])).flatten) := by
  constructor
  · intro s hs
    simp [placeBet, ht, hs, encodeSingle]
  · intro hlen
    simp [placeBet, ht, hlen, encodeComboArray]

/-- C2 witness: one selection (1, 2) goes to the single-bet core with the
pair encoding. -/
theorem placeBet_encoding_witness :
    ∃ call, placeBet sampleArgs (some 2) = .ok (some call)
      ∧ call.coreAddress = sampleArgs.contracts.prematchCore
      ∧ call.dataWords = [1, 2] :=
  (placeBet_encoding sampleArgs 2 (by norm_num)).1 ⟨1, 2⟩ rfl

/-- C10: with odds available, `placeBet` reaches the indexing error of the
single-selection branch exactly on the empty selections list (every list of
length at most one goes to that branch), and the `selections[0]` access is
in bounds exactly when the list is non-empty. -/
theorem placeBet_empty_index (a : PlaceBetArgs) (t : ℚ) (ht : t ≠ 0) :
    ((a.selections.get? 0).isSome ↔ a.selections ≠ [])
    ∧ (placeBet a (some t) = .error .typeError ↔ a.selections = []) := by
  constructor
  · cases a.selections <;> simp
  · cases hs : a.selections with
    | nil => simp [placeBet, ht, hs]
    | cons s rest =>
      cases rest with
      | nil => simp [placeBet, ht, hs]
      | cons s2 rest2 => simp [placeBet, ht, hs]

/-- C10 witness: the empty selections list makes `placeBet` hit the
indexing error even with odds available. -/
theorem placeBet_empty_index_witness :
    placeBet { sampleArgs with selections := [] } (some 2)
      = .error .typeError :=
  ((placeBet_empty_index { sampleArgs with selections := [] } 2
    (by norm_num)).2).mpr rfl

/-- C4: a single invocation of `submit` runs the approval path when approval
is required — and then performs no bet write — and runs `placeBet` when it
is not — performing no approval write; no invocation performs both. -/
theorem submit_exclusive (req w k : Bool) (a : PlaceBetArgs)
    (todds : Option ℚ) :
    (req = true → submitRun req w k a todds = approveRun w k
      ∧ Step.betWrite ∉ submitRun req w k a todds)
    ∧ (req = false → submitRun req w k a todds = placeBetSteps a todds
      ∧ Step.approveWrite ∉ submitRun req w k a todds)
    ∧ ¬ (Step.approveWrite ∈ submitRun req w k a todds
        ∧ Step.betWrite ∈ submitRun req w k a todds) := by
  have hbet : Step.betWrite ∉ approveRun w k := by
    cases w <;> cases k <;> simp [approveRun]
  have happ : Step.approveWrite ∉ placeBetSteps a todds := by
    unfold placeBetSteps
    cases placeBet a todds with
    | ok o => cases o <;> simp
    | error e => simp
  cases req with
  | true =>
    refine ⟨fun _ => ⟨rfl, ?_⟩, fun h => by simp at h, ?_⟩
    · simpa [submitRun] using hbet
    · rintro ⟨-, hmem⟩
      exact absurd (by simpa [submitRun] using hmem) hbet
  | false =>
    refine ⟨fun h => by simp at h, fun _ => ⟨rfl, ?_⟩, ?_⟩
    · simpa [submitRun] using happ
    · rintro ⟨hmem, -⟩
      exact absurd (by simpa [submitRun] using hmem) happ

/-- C4 witness: with approval required, a submit invocation performs no bet
write. -/
theorem submit_exclusive_witness :
    Step.betWrite ∉ submitRun true true true sampleArgs (some 2) :=
  ((submit_exclusive true true true sampleArgs (some 2)).1 rfl).2

lemma effectCalls_all_true {α : Type} (x : α) :
    ∀ n, effectCalls (some true) (List.replicate n (true, x)) = [] := by
  intro n
  induction n with
  | zero => rfl
  | succ m ih => simpa [List.replicate_succ, effectCalls] using ih

lemma effectCalls_terminal {α : Type} (x0 x1 : α) (b : ℕ) (hb : 1 ≤ b) :
    ∀ (a : ℕ) (prev : Option Bool), prev ≠ some true →
      effectCalls prev
        (List.replicate a (false, x0) ++ List.replicate b (true, x1))
        = [x1] := by
  intro a
  induction a with
  | zero =>
    intro prev hprev
    obtain ⟨c, rfl⟩ : ∃ c, b = c + 1 := ⟨b - 1, by omega⟩
    have hfire : (prev != some true) = true := by
      cases prev with
      | none => rfl
      | some v => cases v <;> simp_all
    simp [List.replicate_succ, effectCalls, hfire, effectCalls_all_true]
  | succ m ih =>
    intro prev hprev
    have hrest := ih (some false) (by simp)
    simpa [List.replicate_succ, effectCalls] using hrest

/-- C7: over any render sequence in which the watched receipt flag is false
for `a` polls and then holds at its terminal value for `b ≥ 1` polls, the
effect fires the callback exactly once: `onSuccess` once on the success
transition, and `onError` once with the receipt's error on the error
transition; later polls of the same terminal state do not re-fire. -/
theorem callbacks_fire_once {E : Type} (e : E) (a b : ℕ) (hb : 1 ≤ b) :
    effectCalls none
      (List.replicate a (false, ()) ++ List.replicate b (true, ())) = [()]
    ∧ effectCalls none
      (List.replicate a (false, (none : Option E))
        ++ List.replicate b (true, some e)) = [some e] :=
  ⟨effectCalls_terminal () () b hb a none (by simp),
   effectCalls_terminal none (some e) b hb a none (by simp)⟩

/-- C7 witness: two renders before the transition and three at the terminal
state fire the callback exactly once, with the receipt's error. -/
theorem callbacks_fire_once_witness :
    effectCalls none
      (List.replicate 2 (false, ()) ++ List.replicate 3 (true, ())) = [()]
    ∧ effectCalls none
      (List.replicate 2 (false, (none : Option ℕ))
        ++ List.replicate 3 (true, some 5)) = [some 5] :=
  callbacks_fire_once 5 2 3 (by norm_num)

/-- C8: an `approve()` call refreshes the allowance query exactly once when
both the write and the confirmation succeed, and never otherwise; on
success the refresh is the last step, strictly after the confirmation
wait. -/
theorem approve_refetch_once (w k : Bool) :
    ((approveRun w k).count Step.allowanceRefetch = if w && k then 1 else 0)
    ∧ (w = true → k = true →
        approveRun w k
          = [Step.approveWrite, Step.approveWait, Step.allowanceRefetch]) := by
  cases w <;> cases k <;> simp [approveRun, List.count_cons]

/-- C8 witness: a successful write and confirmation yield the trace write,
wait, then one allowance refresh. -/
theorem approve_refetch_once_witness :
    approveRun true true
      = [Step.approveWrite, Step.approveWait, Step.allowanceRefetch] :=
  (approve_refetch_once true true).2 rfl rfl

/-- C9: for an active chain identifier absent from the per-chain
configuration table, `useChainData` logs exactly one diagnostic message and
returns no record (the function is total, so no exception); for an
identifier present in the table it returns that chain's record and logs
nothing. -/
theorem useChainData_lookup (id : ℕ) :
    (chainsData id = none →
      useChainData (some id) = (none, ["Selected network not supported."]))
    ∧ ∀ d, chainsData id = some d → useChainData (some id) = (some d, []) := by
  by_cases h0 : id = 0
  · subst h0
    refine ⟨fun _ => rfl, fun d hd => ?_⟩
    simp [chainsData] at hd
  · constructor
    · intro hnone
      simp [useChainData, h0, hnone]
    · intro d hd
      simp [useChainData, h0, hd]

/-- C9 witness: chain id 1 is not in the table and yields one log line and
no record; chain id 137 is in the table and resolves without logging. -/
theorem useChainData_lookup_witness :
    useChainData (some 1) = (none, ["Selected network not supported."])
    ∧ useChainData (some 137)
        = (some { contracts := ⟨2001, 2002, 2003, 2004⟩
                  betToken := ⟨2005, false, 6⟩ }, []) :=
  ⟨(useChainData_lookup 1).1 rfl, (useChainData_lookup 137).2 _ rfl⟩

end SDK
